import Mathlib

/-!
Verification of the TeamAssist task/clarification workflow.

This file gives a shallow embedding of the backend task service
(`task.service.ts`), the task controller's pagination handling
(`task.controller.ts`) and the clarification document model, and proves
properties of the role-gated task update policy, the listing filters, and
the clarification threads against it.  The document store is modelled as
explicit lists of documents threaded through each operation; a thrown
exception is an `Except.error` carrying the exception class and message.
-/

deriving instance DecidableEq for Except

namespace TeamAssist

/-- Roles a workspace member can have (`role.enum.ts`). -/
inductive Role where
  | owner
  | admin
  | member
deriving DecidableEq

/-- A membership document (`member.model.ts`): a user's role in a workspace. -/
structure Member where
  userId : String
  workspaceId : String
  role : Role
deriving DecidableEq

/-- A project document, reduced to the fields the task service reads. -/
structure Project where
  id : String
  workspace : String
deriving DecidableEq

/-- A task document (`task.model.ts`).  `assignedTo = none` models an
unassigned task (`null`/missing field); `createdAt` is the creation
timestamp used by the `createdAt: -1` sort. -/
structure Task where
  id : String
  workspace : String
  project : String
  title : String
  description : Option String
  priority : String
  status : String
  assignedTo : Option String
  createdBy : String
  dueDate : Option String
  createdAt : Nat
deriving DecidableEq

/-- One entry of a clarification's `responses` array. -/
structure ClarResponse where
  message : String
  respondedBy : String
  createdAt : Nat
deriving DecidableEq

/-- A task-clarification document (`task-clarification.model.ts`). -/
structure Clarification where
  id : String
  task : String
  workspace : String
  question : String
  askedBy : String
  responses : List ClarResponse
  createdAt : Nat
deriving DecidableEq

/-- The document store: one collection per model. -/
structure DB where
  projects : List Project
  members : List Member
  tasks : List Task
  clarifications : List Clarification
deriving DecidableEq

/-- The exception classes thrown by the service layer (`appError.ts`),
plus `generic` for a plain JavaScript `Error`. -/
inductive Err where
  | notFound (msg : String)
  | badRequest (msg : String)
  | unauthorized (msg : String)
  | generic (msg : String)
deriving DecidableEq

/-- `MemberModel.exists({ userId, workspaceId })`. -/
def memberExists (db : DB) (userId workspaceId : String) : Bool :=
  db.members.any (fun m => m.userId == userId && m.workspaceId == workspaceId)

/-- `verifyTaskBelongsToWorkspace`: look the task up by id restricted to the
given workspace, throwing not-found when there is no match. -/
def verifyTaskBelongsToWorkspace (db : DB) (workspaceId taskId : String) :
    Except Err Task :=
  match db.tasks.find? (fun t => t.id == taskId && t.workspace == workspaceId) with
  | none => .error (.notFound "Task not found or does not belong to this workspace")
  | some t => .ok t

/-- The request body of `createTaskService`.  `assignedTo = none` covers both
an absent field and an explicit `null`. -/
structure CreateTaskBody where
  title : String
  description : Option String := none
  priority : String
  status : String
  assignedTo : Option String := none
  dueDate : Option String := none
deriving DecidableEq

/-- `createTaskService`: validate the project's workspace, check workspace
membership of a (truthy) assignee, then insert the new task document.
`newTaskId` stands for the store-generated document id and `now` for the
creation timestamp. -/
def createTaskService (db : DB) (workspaceId projectId userId : String)
    (body : CreateTaskBody) (newTaskId : String) (now : Nat) :
    Except Err (DB × Task) :=
  match db.projects.find? (fun p => p.id == projectId) with
  | none => .error (.notFound "Project not found or does not belong to this workspace")
  | some project =>
    if project.workspace ≠ workspaceId then
      .error (.notFound "Project not found or does not belong to this workspace")
    else if (match body.assignedTo with
             | some s => s != ""
             | none => false) &&
            !memberExists db (body.assignedTo.getD "") workspaceId then
      .error (.generic "Assigned user is not a member of this workspace.")
    else
      let task : Task :=
        { id := newTaskId
          workspace := workspaceId
          project := projectId
          title := body.title
          description := body.description
          priority := if body.priority = "" then "MEDIUM" else body.priority
          status := if body.status = "" then "TODO" else body.status
          assignedTo := body.assignedTo
          createdBy := userId
          dueDate := body.dueDate
          createdAt := now }
      .ok ({ db with tasks := db.tasks ++ [task] }, task)

/-- A JavaScript value of type `string | null | undefined`, as it appears in
the parsed update body. -/
inductive JsVal where
  | undef
  | jsNull
  | str (s : String)
deriving DecidableEq

/-- The request body of `updateTaskService` (`UpdateTaskPayload` in the
source).  For the plain string fields an absent property and a property set
to `undefined` are indistinguishable to the service, so both are `none`.
For `assignedTo` the service additionally calls `hasOwnProperty`, so
`none` models an absent property and `some .undef` a property explicitly
set to `undefined`. -/
structure UpdateTaskPayload where
  title : Option String := none
  description : Option String := none
  priority : Option String := none
  status : Option String := none
  assignedTo : Option JsVal := none
  dueDate : Option String := none
deriving DecidableEq

/-- Whether the `assignedTo` property survives the
`Object.entries(body).filter(([, value]) => value !== undefined)` step. -/
def assignedToDefined : Option JsVal → Bool
  | some .undef => false
  | some _ => true
  | none => false

/-- The keys of `providedEntries`: properties of the body whose value is not
`undefined`, in object-literal order. -/
def definedKeys (b : UpdateTaskPayload) : List String :=
  (if b.title.isSome then ["title"] else []) ++
  (if b.description.isSome then ["description"] else []) ++
  (if b.priority.isSome then ["priority"] else []) ++
  (if b.status.isSome then ["status"] else []) ++
  (if assignedToDefined b.assignedTo then ["assignedTo"] else []) ++
  (if b.dueDate.isSome then ["dueDate"] else [])

/-- The `updatePayload` record accumulated by `updateTaskService`:
`none` means the key is absent from the payload.  For `assignedTo`,
`some none` is the key set to `null` (clearing the assignee) and
`some (some s)` the key set to user `s`. -/
structure UpdateFields where
  status : Option String := none
  title : Option String := none
  description : Option String := none
  priority : Option String := none
  dueDate : Option String := none
  assignedTo : Option (Option String) := none
deriving DecidableEq

/-- Lines 141-185 of `task.service.ts`: which fields end up in
`updatePayload` given the caller's role, ignoring the membership check
(which is handled separately by the service before this payload is
inspected). -/
def effectivePayload (isOwnerOrAdmin : Bool) (b : UpdateTaskPayload) :
    UpdateFields :=
  { status := b.status
    title := if isOwnerOrAdmin then b.title else none
    description := if isOwnerOrAdmin then b.description else none
    priority := if isOwnerOrAdmin then b.priority else none
    dueDate := if isOwnerOrAdmin then b.dueDate else none
    assignedTo :=
      if isOwnerOrAdmin then
        match b.assignedTo with
        | some (.str s) => if s = "" then some none else some (some s)
        | some .jsNull => some none
        | some .undef => none
        | none => none
      else none }

/-- `!Object.keys(updatePayload).length`. -/
def updateFieldsEmpty (p : UpdateFields) : Bool :=
  p.status.isNone && p.title.isNone && p.description.isNone &&
  p.priority.isNone && p.dueDate.isNone && p.assignedTo.isNone

/-- `findByIdAndUpdate(taskId, updatePayload)`: `$set` each present key of
the payload on the document. -/
def applyUpdateFields (t : Task) (p : UpdateFields) : Task :=
  { t with
    status := p.status.getD t.status
    title := p.title.getD t.title
    description := match p.description with
      | some d => some d
      | none => t.description
    priority := p.priority.getD t.priority
    dueDate := match p.dueDate with
      | some d => some d
      | none => t.dueDate
    assignedTo := match p.assignedTo with
      | some v => v
      | none => t.assignedTo }

/-- `userRole === Roles.OWNER || userRole === Roles.ADMIN`. -/
def isOwnerOrAdminRole (r : Role) : Bool :=
  r == .owner || r == .admin

/-- `updateTaskService`: project and task lookups, the role/assignee gate,
the member-only field gate, the assignee sanitation and membership check,
the empty-payload check, and finally the document update. -/
def updateTaskService (db : DB) (workspaceId projectId taskId userId : String)
    (userRole : Role) (body : UpdateTaskPayload) : Except Err (DB × Task) :=
  match db.projects.find? (fun p => p.id == projectId) with
  | none => .error (.notFound "Project not found or does not belong to this workspace")
  | some project =>
  if project.workspace ≠ workspaceId then
    .error (.notFound "Project not found or does not belong to this workspace")
  else
  match db.tasks.find? (fun t => t.id == taskId) with
  | none => .error (.notFound "Task not found or does not belong to this project")
  | some task =>
  if task.project ≠ projectId then
    .error (.notFound "Task not found or does not belong to this project")
  else
  let isOwnerOrAdmin := isOwnerOrAdminRole userRole
  let isTaskAssignedToUser :=
    match task.assignedTo with
    | some a => a == userId
    | none => false
  if !isOwnerOrAdmin && !isTaskAssignedToUser then
    .error (.unauthorized "You are not authorized to update this task")
  else
  let invalidFields := (definedKeys body).filter (fun k => k != "status")
  if !isOwnerOrAdmin && !invalidFields.isEmpty then
    .error (.unauthorized "Members can only update the task status")
  else
  let sanitizedAssignee : Option String :=
    if isOwnerOrAdmin then
      match body.assignedTo with
      | some (.str s) => if s = "" then none else some s
      | _ => none
    else none
  if (match sanitizedAssignee with
      | some s => !memberExists db s workspaceId
      | none => false) then
    .error (.badRequest "Assigned user is not a member of this workspace")
  else
  let updatePayload := effectivePayload isOwnerOrAdmin body
  if updateFieldsEmpty updatePayload then
    .error (.badRequest "No updates were provided")
  else
  let updatedTask := applyUpdateFields task updatePayload
  .ok ({ db with
          tasks := db.tasks.map (fun x => if x.id = taskId then updatedTask else x) },
       updatedTask)

/-- The characters MongoDB/PCRE treat specially in a pattern. -/
def regexMetachars : List Char :=
  ['\\', '^', '$', '.', '|', '?', '*', '+', '(', ')', '[', ']', '\x7b', '\x7d']

/-- A single-character regex atom. -/
inductive RTok where
  | dot
  | lit (c : Char)
deriving DecidableEq

/-- Parse a pattern into a list of single-character atoms.  Covers the
PCRE fragment of literal characters, the `.` wildcard and backslash
escapes of metacharacters; patterns using other regex constructs are out
of the modelled fragment and yield `none`. -/
def tokenizeRegex : List Char → Option (List RTok)
  | [] => some []
  | c :: rest =>
    if c = '\\' then
      match rest with
      | [] => none
      | d :: rest2 =>
        if d ∈ regexMetachars then (tokenizeRegex rest2).map (fun ts => .lit d :: ts)
        else none
    else if c = '.' then (tokenizeRegex rest).map (fun ts => .dot :: ts)
    else if c ∈ regexMetachars then none
    else (tokenizeRegex rest).map (fun ts => .lit c :: ts)

/-- Case-insensitive match of one atom against one character. -/
def tokMatches : RTok → Char → Bool
  | .dot, _ => true
  | .lit c, d => c.toLower == d.toLower

/-- Match the atom list against the start of the text. -/
def matchToksAt : List RTok → List Char → Bool
  | [], _ => true
  | _ :: _, [] => false
  | t :: ts, c :: cs => tokMatches t c && matchToksAt ts cs

/-- Unanchored search: match the atom list at some position of the text. -/
def searchToks (ts : List RTok) : List Char → Bool
  | [] => matchToksAt ts []
  | c :: cs => matchToksAt ts (c :: cs) || searchToks ts cs

/-- Modelled behaviour of the MongoDB query operator
`{ $regex: pattern, $options: "i" }` on a string field: an unanchored,
case-insensitive PCRE match, modelled on the fragment handled by
`tokenizeRegex`. -/
def mongoRegexIMatch (pattern s : String) : Bool :=
  match tokenizeRegex pattern.toList with
  | some ts => searchToks ts s.toList
  | none => false

/-- The `filters` argument of `getAllTasksService`. -/
structure TaskFilters where
  projectId : Option String := none
  status : Option (List String) := none
  priority : Option (List String) := none
  assignedTo : Option (List String) := none
  keyword : Option String := none
  dueDate : Option String := none
deriving DecidableEq

/-- Whether a task document matches the Mongo query built by
`getAllTasksService` (lines 217-245): each filter contributes a clause
only when its guard (`if (filters.x)` or a non-empty array) passes.  The
`dueDate` clause compares the stored due-date string directly; `new Date`
normalisation is not modelled, as no claim filters by due date. -/
def matchesTaskQuery (workspaceId : String) (f : TaskFilters) (t : Task) : Bool :=
  t.workspace == workspaceId &&
  (match f.projectId with
   | some p => p == "" || t.project == p
   | none => true) &&
  (match f.status with
   | some l => l.isEmpty || l.contains t.status
   | none => true) &&
  (match f.priority with
   | some l => l.isEmpty || l.contains t.priority
   | none => true) &&
  (match f.assignedTo with
   | some l =>
     l.isEmpty ||
       (match t.assignedTo with
        | some a => l.contains a
        | none => false)
   | none => true) &&
  (match f.keyword with
   | some k => k == "" || mongoRegexIMatch k t.title
   | none => true) &&
  (match f.dueDate with
   | some d =>
     d == "" ||
       (match t.dueDate with
        | some td => td == d
        | none => false)
   | none => true)

/-- The `sort({ createdAt: -1 })` order: newest first. -/
def taskNewestFirst (a b : Task) : Prop :=
  b.createdAt ≤ a.createdAt

instance : DecidableRel taskNewestFirst :=
  fun a b => Nat.decLe b.createdAt a.createdAt

instance : IsTotal Task taskNewestFirst :=
  ⟨fun a b => Nat.le_total b.createdAt a.createdAt⟩

instance : IsTrans Task taskNewestFirst :=
  ⟨fun _ _ _ h1 h2 => Nat.le_trans h2 h1⟩

/-- `Math.ceil(totalCount / pageSize)` on an integral count and page size:
the ceiling of the exact rational quotient, expressed with floor division.
(`pageSize = 0` cannot reach this function: the controller replaces a zero
page size by the default.) -/
def jsMathCeilDiv (totalCount : Nat) (pageSize : Int) : Int :=
  if pageSize = 0 then 0 else -(Int.fdiv (-(totalCount : Int)) pageSize)

/-- The `pagination` object of the listing response. -/
structure PaginationInfo where
  pageSize : Int
  pageNumber : Int
  totalCount : Nat
  totalPages : Int
  skip : Int
deriving DecidableEq

/-- The value returned by `getAllTasksService`. -/
structure TaskListResult where
  tasks : List Task
  pagination : PaginationInfo
deriving DecidableEq

/-- `getAllTasksService`: filter, sort newest first, then apply
`skip`/`limit`, and report the pagination numbers.  The store applies the
sort before `skip` and `limit` regardless of builder-call order. -/
def getAllTasksService (db : DB) (workspaceId : String) (filters : TaskFilters)
    (pageSize pageNumber : Int) : TaskListResult :=
  let matching := db.tasks.filter (matchesTaskQuery workspaceId filters)
  let skip := (pageNumber - 1) * pageSize
  let sorted := matching.insertionSort taskNewestFirst
  { tasks := (sorted.drop skip.toNat).take pageSize.toNat
    pagination :=
      { pageSize
        pageNumber
        totalCount := matching.length
        totalPages := jsMathCeilDiv matching.length pageSize
        skip } }

/-- Whitespace skipped by JavaScript `parseInt`. -/
def isJsSpace (c : Char) : Bool :=
  c == ' ' || c == '\t' || c == '\n' || c == '\r' || c == '\x0b' || c == '\x0c'

/-- Numeric value of a character as a digit (`99` when it is no digit in
any radix up to 36). -/
def charDigitVal (c : Char) : Nat :=
  if '0' ≤ c ∧ c ≤ '9' then c.toNat - '0'.toNat
  else if 'a' ≤ c ∧ c ≤ 'z' then c.toNat - 'a'.toNat + 10
  else if 'A' ≤ c ∧ c ≤ 'Z' then c.toNat - 'A'.toNat + 10
  else 99

/-- Value of the longest digit prefix in the given radix; `none` when the
text does not start with a digit of that radix. -/
def parseDigitsRadix (radix : Nat) (cs : List Char) : Option Nat :=
  let ds := cs.takeWhile (fun c => charDigitVal c < radix)
  if ds.isEmpty then none
  else some (ds.foldl (fun a c => a * radix + charDigitVal c) 0)

/-- Modelled behaviour of JavaScript `parseInt(x)` with no radix argument
as the controller calls it: `none` is `NaN`.  An absent query parameter is
`undefined`, which stringifies to `"undefined"` and parses to `NaN`, so it
is modelled as the `none` input.  Leading whitespace and an optional sign
are skipped and a `0x`/`0X` prefix selects hexadecimal. -/
def jsParseInt : Option String → Option Int
  | none => none
  | some s =>
    let cs := s.toList.dropWhile isJsSpace
    let signAndRest : Int × List Char :=
      match cs with
      | '-' :: r => (-1, r)
      | '+' :: r => (1, r)
      | r => (1, r)
    let value? : Option Nat :=
      match signAndRest.2 with
      | '0' :: x :: r =>
        if x = 'x' ∨ x = 'X' then parseDigitsRadix 16 r
        else parseDigitsRadix 10 signAndRest.2
      | _ => parseDigitsRadix 10 signAndRest.2
    value?.map (fun n => signAndRest.1 * (n : Int))

/-- JavaScript `v || dflt` on a parsed number: `NaN` and `0` are falsy. -/
def jsOrInt (v : Option Int) (dflt : Int) : Int :=
  match v with
  | some n => if n = 0 then dflt else n
  | none => dflt

/-- Lines 103-106 of `task.controller.ts`:
`parseInt(req.query.pageSize) || 10` and
`parseInt(req.query.pageNumber) || 1`. -/
def taskListPagination (pageSizeParam pageNumberParam : Option String) :
    Int × Int :=
  (jsOrInt (jsParseInt pageSizeParam) 10, jsOrInt (jsParseInt pageNumberParam) 1)

/-- `getTaskByIdService`: validate the project's workspace, then look the
task up by id, workspace and project. -/
def getTaskByIdService (db : DB) (workspaceId projectId taskId : String) :
    Except Err Task :=
  match db.projects.find? (fun p => p.id == projectId) with
  | none => .error (.notFound "Project not found or does not belong to this workspace")
  | some project =>
  if project.workspace ≠ workspaceId then
    .error (.notFound "Project not found or does not belong to this workspace")
  else
  match db.tasks.find?
      (fun t => t.id == taskId && t.workspace == workspaceId && t.project == projectId) with
  | none => .error (.notFound "Task not found.")
  | some t => .ok t

/-- `deleteTaskService`: `findOneAndDelete({ _id, workspace })` removes the
first matching document, else throws not-found. -/
def deleteTaskService (db : DB) (workspaceId taskId : String) : Except Err DB :=
  match db.tasks.find? (fun t => t.id == taskId && t.workspace == workspaceId) with
  | none => .error (.notFound "Task not found or does not belong to the specified workspace")
  | some _ =>
    .ok { db with
          tasks := db.tasks.eraseP (fun t => t.id == taskId && t.workspace == workspaceId) }

/-- The `sort({ createdAt: -1 })` order on clarifications. -/
def clarNewestFirst (a b : Clarification) : Prop :=
  b.createdAt ≤ a.createdAt

instance : DecidableRel clarNewestFirst :=
  fun a b => Nat.decLe b.createdAt a.createdAt

instance : IsTotal Clarification clarNewestFirst :=
  ⟨fun a b => Nat.le_total b.createdAt a.createdAt⟩

instance : IsTrans Clarification clarNewestFirst :=
  ⟨fun _ _ _ h1 h2 => Nat.le_trans h2 h1⟩

/-- `getTaskClarificationsService`: verify the task's workspace, then list
the task's clarifications newest first. -/
def getTaskClarificationsService (db : DB) (workspaceId taskId : String) :
    Except Err (List Clarification) :=
  match verifyTaskBelongsToWorkspace db workspaceId taskId with
  | .error e => .error e
  | .ok _ =>
    .ok ((db.clarifications.filter
            (fun c => c.workspace == workspaceId && c.task == taskId)).insertionSort
          clarNewestFirst)

/-- `createTaskClarificationService`: verify the task's workspace, then
insert a clarification with an empty response list. -/
def createTaskClarificationService (db : DB)
    (workspaceId taskId userId question newId : String) (now : Nat) :
    Except Err (DB × Clarification) :=
  match verifyTaskBelongsToWorkspace db workspaceId taskId with
  | .error e => .error e
  | .ok _ =>
    let c : Clarification :=
      { id := newId
        task := taskId
        workspace := workspaceId
        question
        askedBy := userId
        responses := []
        createdAt := now }
    .ok ({ db with clarifications := db.clarifications ++ [c] }, c)

/-- Replace the first element satisfying `p` by its image under `f`
(the single-document update of `findOneAndUpdate`). -/
def updateFirstP (p : Clarification → Bool) (f : Clarification → Clarification) :
    List Clarification → List Clarification
  | [] => []
  | c :: cs => if p c then f c :: cs else c :: updateFirstP p f cs

/-- `respondToTaskClarificationService`: verify the task's workspace, then
`findOneAndUpdate` the clarification by id, workspace and task, pushing
one response onto its `responses` array; not-found when no document
matches. -/
def respondToTaskClarificationService (db : DB)
    (workspaceId taskId clarificationId userId message : String) (now : Nat) :
    Except Err (DB × Clarification) :=
  match verifyTaskBelongsToWorkspace db workspaceId taskId with
  | .error e => .error e
  | .ok _ =>
    match db.clarifications.find?
        (fun c => c.id == clarificationId && c.workspace == workspaceId && c.task == taskId) with
    | none => .error (.notFound "Clarification not found for this task")
    | some c =>
      let pushed := fun x : Clarification =>
        { x with responses := x.responses ++ [{ message
                                                respondedBy := userId
                                                createdAt := now }] }
      .ok ({ db with
             clarifications :=
               updateFirstP
                 (fun x => x.id == clarificationId && x.workspace == workspaceId &&
                           x.task == taskId)
                 pushed db.clarifications },
           pushed c)

/-- One request to the task/clarification API, as dispatched by the
controllers. -/
inductive Op where
  | createTask (workspaceId projectId userId : String) (body : CreateTaskBody)
      (newTaskId : String)
  | updateTask (workspaceId projectId taskId userId : String) (role : Role)
      (body : UpdateTaskPayload)
  | deleteTask (workspaceId taskId : String)
  | getAllTasks (workspaceId : String) (filters : TaskFilters)
      (pageSize pageNumber : Int)
  | getTaskById (workspaceId projectId taskId : String)
  | listClarifications (workspaceId taskId : String)
  | createClarification (workspaceId taskId userId question newId : String)
  | respondClarification (workspaceId taskId clarificationId userId message : String)

/-- Run one operation against the store, returning the store after the
operation.  Read-only operations leave it unchanged. -/
def applyOp (db : DB) (op : Op) (now : Nat) : Except Err DB :=
  match op with
  | .createTask ws pid uid body nid =>
    match createTaskService db ws pid uid body nid now with
    | .error e => .error e
    | .ok r => .ok r.1
  | .updateTask ws pid tid uid role body =>
    match updateTaskService db ws pid tid uid role body with
    | .error e => .error e
    | .ok r => .ok r.1
  | .deleteTask ws tid => deleteTaskService db ws tid
  | .getAllTasks _ _ _ _ => .ok db
  | .getTaskById ws pid tid =>
    match getTaskByIdService db ws pid tid with
    | .error e => .error e
    | .ok _ => .ok db
  | .listClarifications ws tid =>
    match getTaskClarificationsService db ws tid with
    | .error e => .error e
    | .ok _ => .ok db
  | .createClarification ws tid uid q nid =>
    match createTaskClarificationService db ws tid uid q nid now with
    | .error e => .error e
    | .ok r => .ok r.1
  | .respondClarification ws tid cid uid msg =>
    match respondToTaskClarificationService db ws tid cid uid msg now with
    | .error e => .error e
    | .ok r => .ok r.1


/-- Claim C1: when the caller's role is neither OWNER nor ADMIN and the
caller is not the task's current assignee, `updateTaskService` rejects the
request with the unauthorized error, for every request body; the service
fails before any write, so the store (and hence the task) is unchanged. -/
theorem C1_update_unauthorized
    (db : DB) (workspaceId projectId taskId userId : String) (userRole : Role)
    (project : Project) (task : Task)
    (hp : db.projects.find? (fun p => p.id == projectId) = some project)
    (hpw : project.workspace = workspaceId)
    (ht : db.tasks.find? (fun t => t.id == taskId) = some task)
    (htp : task.project = projectId)
    (hrole : userRole ≠ .owner ∧ userRole ≠ .admin)
    (hassign : task.assignedTo ≠ some userId)
    (body : UpdateTaskPayload) :
    updateTaskService db workspaceId projectId taskId userId userRole body =
      .error (.unauthorized "You are not authorized to update this task") := by
  have hroleb : isOwnerOrAdminRole userRole = false := by
    cases userRole <;> simp_all [isOwnerOrAdminRole]
  have hassignb : (match task.assignedTo with
      | some a => a == userId
      | none => false) = false := by
    cases h : task.assignedTo with
    | none => rfl
    | some a =>
      simp only [beq_eq_false_iff_ne, ne_eq]
      intro he
      exact hassign (by rw [h, he])
  unfold updateTaskService
  rw [hp, ht]
  simp [hpw, htp, hroleb, hassignb]


/-- Claim C2: for a caller who is not OWNER/ADMIN but is the task's
assignee, a body with any defined field other than `status` is rejected as
unauthorized, while a body defining only `status` succeeds and the stored
task changes in the `status` field alone. -/
theorem C2_assignee_member_status_only
    (db : DB) (workspaceId projectId taskId userId : String) (userRole : Role)
    (project : Project) (task : Task)
    (hp : db.projects.find? (fun p => p.id == projectId) = some project)
    (hpw : project.workspace = workspaceId)
    (ht : db.tasks.find? (fun t => t.id == taskId) = some task)
    (htp : task.project = projectId)
    (hrole : userRole ≠ .owner ∧ userRole ≠ .admin)
    (hassign : task.assignedTo = some userId) :
    (∀ body : UpdateTaskPayload,
      (body.title ≠ none ∨ body.description ≠ none ∨ body.priority ≠ none ∨
        body.dueDate ≠ none ∨ assignedToDefined body.assignedTo = true) →
      updateTaskService db workspaceId projectId taskId userId userRole body =
        .error (.unauthorized "Members can only update the task status")) ∧
    (∀ (s : String) (body : UpdateTaskPayload),
      body.title = none → body.description = none → body.priority = none →
      body.dueDate = none → (body.assignedTo = none ∨ body.assignedTo = some .undef) →
      body.status = some s →
      updateTaskService db workspaceId projectId taskId userId userRole body =
        .ok ({ db with
                tasks := db.tasks.map
                  (fun x => if x.id = taskId then { task with status := s } else x) },
             { task with status := s })) := by
  have hroleb : isOwnerOrAdminRole userRole = false := by
    cases userRole <;> simp_all [isOwnerOrAdminRole]
  constructor
  · intro body hdef
    have hmem : ∃ k, k ∈ (definedKeys body).filter (fun k => k != "status") := by
      rcases hdef with h | h | h | h | h
      · exact ⟨"title", by simp [definedKeys, List.mem_filter, Option.isSome_iff_ne_none, h]⟩
      · exact ⟨"description", by simp [definedKeys, List.mem_filter, Option.isSome_iff_ne_none, h]⟩
      · exact ⟨"priority", by simp [definedKeys, List.mem_filter, Option.isSome_iff_ne_none, h]⟩
      · exact ⟨"dueDate", by simp [definedKeys, List.mem_filter, Option.isSome_iff_ne_none, h]⟩
      · exact ⟨"assignedTo", by simp [definedKeys, List.mem_filter, h]⟩
    obtain ⟨k, hk⟩ := hmem
    have hne : ((definedKeys body).filter (fun k => k != "status")).isEmpty = false := by
      cases hfe : (definedKeys body).filter (fun k => k != "status") with
      | nil => rw [hfe] at hk; cases hk
      | cons a l => simp [hfe]
    unfold updateTaskService
    rw [hp, ht]
    simp [hpw, htp, hroleb, hassign, hne]
  · intro s body h1 h2 h3 h4 h5 h6
    have hdk : definedKeys body = ["status"] := by
      rcases h5 with h5 | h5 <;>
        simp [definedKeys, h1, h2, h3, h4, h5, h6, assignedToDefined]
    unfold updateTaskService
    rw [hp, ht]
    rcases h5 with h5 | h5 <;>
      simp [hpw, htp, hroleb, hassign, hdk, effectivePayload, updateFieldsEmpty,
        applyUpdateFields, h1, h2, h3, h4, h5, h6]


/-- Claim C4: an update request that passes both authorization gates but
whose body yields an empty effective update payload fails as a bad
request, leaving the task unchanged. -/
theorem C4_empty_update_bad_request
    (db : DB) (workspaceId projectId taskId userId : String) (userRole : Role)
    (project : Project) (task : Task) (body : UpdateTaskPayload)
    (hp : db.projects.find? (fun p => p.id == projectId) = some project)
    (hpw : project.workspace = workspaceId)
    (ht : db.tasks.find? (fun t => t.id == taskId) = some task)
    (htp : task.project = projectId)
    (hauth : isOwnerOrAdminRole userRole = true ∨ task.assignedTo = some userId)
    (hgate : isOwnerOrAdminRole userRole = false →
      body.title = none ∧ body.description = none ∧ body.priority = none ∧
        body.dueDate = none ∧ assignedToDefined body.assignedTo = false)
    (hempty : updateFieldsEmpty (effectivePayload (isOwnerOrAdminRole userRole) body) = true) :
    updateTaskService db workspaceId projectId taskId userId userRole body =
      .error (.badRequest "No updates were provided") := by
  unfold updateTaskService
  rw [hp, ht]
  cases hA : isOwnerOrAdminRole userRole with
  | true =>
    rw [hA] at hempty
    simp only [updateFieldsEmpty, effectivePayload, if_true, Bool.and_eq_true,
      Option.isNone_iff_eq_none] at hempty
    obtain ⟨⟨⟨⟨⟨hst, hti⟩, hde⟩, hpr⟩, hdu⟩, has⟩ := hempty
    have hasn : body.assignedTo = none ∨ body.assignedTo = some JsVal.undef := by
      cases hv : body.assignedTo with
      | none => exact Or.inl rfl
      | some v =>
        cases v with
        | undef => exact Or.inr rfl
        | jsNull => rw [hv] at has; simp at has
        | str s =>
          rw [hv] at has
          by_cases hs : s = "" <;> simp [hs] at has
    rcases hasn with hasn | hasn <;>
      simp [hpw, htp, hA, updateFieldsEmpty, effectivePayload,
        hst, hti, hde, hpr, hdu, hasn]
  | false =>
    obtain ⟨hti, hde, hpr, hdu, has⟩ := hgate hA
    rw [hA] at hempty
    simp only [updateFieldsEmpty, effectivePayload, if_false, Bool.and_eq_true,
      Option.isNone_iff_eq_none] at hempty
    have hst : body.status = none := hempty.1.1.1.1.1
    have hassignb : (match task.assignedTo with
        | some a => a == userId
        | none => false) = true := by
      rcases hauth with h | h
      · rw [h] at hA; cases hA
      · rw [h]; simp
    have hdk : definedKeys body = [] := by
      simp [definedKeys, hti, hde, hpr, hdu, has, hst]
    simp [hpw, htp, hA, hassignb, hdk, updateFieldsEmpty, effectivePayload,
      hst, hti, hde, hpr, hdu]


/-- Claim C10: an OWNER/ADMIN update whose body sets `assignedTo` to null
or to the empty string succeeds with the stored assignee cleared to null,
for every membership table (so no membership check takes place), and such
a request does not count as an empty update. -/
theorem C10_clear_assignee_no_member_check
    (db : DB) (workspaceId projectId taskId userId : String) (userRole : Role)
    (project : Project) (task : Task) (body : UpdateTaskPayload)
    (hp : db.projects.find? (fun p => p.id == projectId) = some project)
    (hpw : project.workspace = workspaceId)
    (ht : db.tasks.find? (fun t => t.id == taskId) = some task)
    (htp : task.project = projectId)
    (hrole : userRole = .owner ∨ userRole = .admin)
    (ha : body.assignedTo = some JsVal.jsNull ∨ body.assignedTo = some (JsVal.str "")) :
    ∀ ms : List Member, ∃ ut : Task,
      updateTaskService { db with members := ms } workspaceId projectId taskId
          userId userRole body =
        .ok ({ db with
                members := ms
                tasks := db.tasks.map (fun x => if x.id = taskId then ut else x) },
             ut) ∧
      ut.assignedTo = none := by
  intro ms
  have hA : isOwnerOrAdminRole userRole = true := by
    rcases hrole with h | h <;> simp [isOwnerOrAdminRole, h]
  refine ⟨applyUpdateFields task (effectivePayload true body), ?_, ?_⟩
  · unfold updateTaskService
    rw [show ({ db with members := ms } : DB).projects = db.projects from rfl, hp,
      show ({ db with members := ms } : DB).tasks = db.tasks from rfl, ht]
    rcases ha with h | h <;>
      simp [hpw, htp, hA, h, updateFieldsEmpty, effectivePayload]
  · rcases ha with h | h <;> simp [applyUpdateFields, effectivePayload, h]


def noMemberDB : DB :=
  { projects := [⟨"p1", "w1"⟩], members := [], tasks := [], clarifications := [] }

def c3Body : CreateTaskBody :=
  { title := "New task", priority := "MEDIUM", status := "TODO", assignedTo := some "u2" }

/-- Claim C3 counterexample: creating a task assigned to a user who is not
a workspace member throws a plain `Error`, not a bad-request error, so the
claim that the operation "fails as a bad request" is false on the create
path. -/
theorem C3_counterexample :
    createTaskService noMemberDB "w1" "p1" "u1" c3Body "t1" 0 =
      .error (.generic "Assigned user is not a member of this workspace.") ∧
    ∀ m : String,
      createTaskService noMemberDB "w1" "p1" "u1" c3Body "t1" 0 ≠
        .error (.badRequest m) := by
  refine ⟨by decide, ?_⟩
  intro m hcon
  rw [show createTaskService noMemberDB "w1" "p1" "u1" c3Body "t1" 0 =
      Except.error (Err.generic "Assigned user is not a member of this workspace.")
    from by decide] at hcon
  simp at hcon

/-- Claim C3 as amended: assigning a task to a non-member fails before any
document is written, with a plain (generic) error on task creation and a
bad-request error on a task update by an OWNER/ADMIN caller. -/
theorem C3_amended_nonmember_assignee
    (db : DB) (workspaceId projectId userId : String)
    (project : Project) (assignee : String)
    (hp : db.projects.find? (fun p => p.id == projectId) = some project)
    (hpw : project.workspace = workspaceId)
    (hne : assignee ≠ "")
    (hnm : memberExists db assignee workspaceId = false) :
    (∀ body : CreateTaskBody, body.assignedTo = some assignee →
      ∀ (newTaskId : String) (now : Nat),
        createTaskService db workspaceId projectId userId body newTaskId now =
          .error (.generic "Assigned user is not a member of this workspace.")) ∧
    (∀ (taskId userId2 : String) (userRole : Role) (task : Task)
        (body : UpdateTaskPayload),
      db.tasks.find? (fun t => t.id == taskId) = some task →
      task.project = projectId →
      isOwnerOrAdminRole userRole = true →
      body.assignedTo = some (.str assignee) →
      updateTaskService db workspaceId projectId taskId userId2 userRole body =
        .error (.badRequest "Assigned user is not a member of this workspace")) := by
  constructor
  · intro body hb newTaskId now
    unfold createTaskService
    rw [hp]
    simp [hpw, hb, hne, hnm]
  · intro taskId userId2 userRole task body ht htp hA hb
    unfold updateTaskService
    rw [hp, ht]
    simp [hpw, htp, hA, hb, hne, hnm]


/-- Claim C5: when the referenced task exists but belongs to a different
workspace than the one named in the request (ids being unique and every
task's project lying in the task's workspace), each clarification
operation (list, create, respond) and each task operation (get by id,
update, delete) fails as not-found, before any write. -/
theorem C5_cross_workspace_not_found
    (db : DB) (workspaceId taskId : String) (t : Task)
    (htmem : t ∈ db.tasks) (htid : t.id = taskId)
    (hw : t.workspace ≠ workspaceId)
    (huniq : (db.tasks.map Task.id).Nodup)
    (hinv : ∀ u ∈ db.tasks, ∀ p,
      db.projects.find? (fun q => q.id == u.project) = some p →
      p.workspace = u.workspace) :
    getTaskClarificationsService db workspaceId taskId =
      .error (.notFound "Task not found or does not belong to this workspace") ∧
    (∀ (userId question newId : String) (now : Nat),
      createTaskClarificationService db workspaceId taskId userId question newId now =
        .error (.notFound "Task not found or does not belong to this workspace")) ∧
    (∀ (clarificationId userId message : String) (now : Nat),
      respondToTaskClarificationService db workspaceId taskId clarificationId
          userId message now =
        .error (.notFound "Task not found or does not belong to this workspace")) ∧
    (∀ projectId : String, ∃ m : String,
      getTaskByIdService db workspaceId projectId taskId = .error (.notFound m)) ∧
    (∀ (projectId userId : String) (userRole : Role) (body : UpdateTaskPayload),
      ∃ m : String,
        updateTaskService db workspaceId projectId taskId userId userRole body =
          .error (.notFound m)) ∧
    deleteTaskService db workspaceId taskId =
      .error (.notFound "Task not found or does not belong to the specified workspace") := by
  have hinj : ∀ u ∈ db.tasks, u.id = taskId → u = t := fun u hu hid =>
    List.inj_on_of_nodup_map huniq hu htmem (by rw [hid, htid])
  have hnone : db.tasks.find? (fun x => x.id == taskId && x.workspace == workspaceId)
      = none := by
    rw [List.find?_eq_none]
    intro x hx hcon
    simp only [Bool.and_eq_true, beq_iff_eq] at hcon
    have hx_t : x = t := hinj x hx hcon.1
    rw [hx_t] at hcon
    exact hw hcon.2
  have hverify : verifyTaskBelongsToWorkspace db workspaceId taskId =
      .error (.notFound "Task not found or does not belong to this workspace") := by
    unfold verifyTaskBelongsToWorkspace
    rw [hnone]
  refine ⟨?_, ?_, ?_, ?_, ?_, ?_⟩
  · unfold getTaskClarificationsService
    rw [hverify]
  · intro userId question newId now
    unfold createTaskClarificationService
    rw [hverify]
  · intro clarificationId userId message now
    unfold respondToTaskClarificationService
    rw [hverify]
  · intro projectId
    unfold getTaskByIdService
    cases hfp : db.projects.find? (fun p => p.id == projectId) with
    | none =>
      exact ⟨"Project not found or does not belong to this workspace", rfl⟩
    | some pr =>
      by_cases hprw : pr.workspace = workspaceId
      · have hnone3 : db.tasks.find?
            (fun x => x.id == taskId && x.workspace == workspaceId &&
              x.project == projectId) = none := by
          rw [List.find?_eq_none]
          intro x hx hcon
          simp only [Bool.and_eq_true, beq_iff_eq] at hcon
          have hx_t : x = t := hinj x hx hcon.1.1
          rw [hx_t] at hcon
          exact hw hcon.1.2
        refine ⟨"Task not found.", ?_⟩
        simp [hprw, hnone3]
      · refine ⟨"Project not found or does not belong to this workspace", ?_⟩
        simp [hprw]
  · intro projectId userId userRole body
    unfold updateTaskService
    cases hfp : db.projects.find? (fun p => p.id == projectId) with
    | none =>
      exact ⟨"Project not found or does not belong to this workspace", rfl⟩
    | some pr =>
      by_cases hprw : pr.workspace = workspaceId
      · cases hft : db.tasks.find? (fun x => x.id == taskId) with
        | none =>
          refine ⟨"Task not found or does not belong to this project", ?_⟩
          simp [hprw]
        | some u =>
          have humem : u ∈ db.tasks := List.mem_of_find?_eq_some hft
          have huid : u.id = taskId := by simpa using List.find?_some hft
          have hu_t : u = t := hinj u humem huid
          have hup : u.project ≠ projectId := by
            intro hcon
            have hpw2 := hinv u humem pr (by rw [hcon]; exact hfp)
            rw [hu_t] at hpw2
            exact hw (hpw2.symm.trans hprw)
          refine ⟨"Task not found or does not belong to this project", ?_⟩
          simp [hprw, hup]
      · refine ⟨"Project not found or does not belong to this workspace", ?_⟩
        simp [hprw]
  · unfold deleteTaskService
    rw [hnone]


theorem createTaskService_clarifications {db : DB} {ws pid uid nid : String}
    {b : CreateTaskBody} {now : Nat} {r : DB × Task}
    (h : createTaskService db ws pid uid b nid now = .ok r) :
    r.1.clarifications = db.clarifications := by
  unfold createTaskService at h
  repeat' split at h
  all_goals simp_all
  all_goals rw [← h]


theorem updateTaskService_clarifications {db : DB} {ws pid tid uid : String}
    {role : Role} {body : UpdateTaskPayload} {r : DB × Task}
    (h : updateTaskService db ws pid tid uid role body = .ok r) :
    r.1.clarifications = db.clarifications := by
  simp only [updateTaskService] at h
  repeat' split at h
  all_goals try (injection h with h2; rw [← h2])
  all_goals injection h

theorem deleteTaskService_clarifications {db : DB} {ws tid : String} {db' : DB}
    (h : deleteTaskService db ws tid = .ok db') :
    db'.clarifications = db.clarifications := by
  unfold deleteTaskService at h
  split at h
  · exact absurd h (by simp)
  · simp only [Except.ok.injEq] at h
    rw [← h]

theorem createTaskClarificationService_clarifications {db : DB}
    {ws tid uid q nid : String} {now : Nat} {r : DB × Clarification}
    (h : createTaskClarificationService db ws tid uid q nid now = .ok r) :
    ∃ c, r.1.clarifications = db.clarifications ++ [c] := by
  unfold createTaskClarificationService at h
  split at h
  · exact absurd h (by simp)
  · simp only [Except.ok.injEq] at h
    rw [← h]
    exact ⟨_, rfl⟩

theorem respondToTaskClarificationService_clarifications {db : DB}
    {ws tid cid uid msg : String} {now : Nat} {r : DB × Clarification}
    (h : respondToTaskClarificationService db ws tid cid uid msg now = .ok r) :
    r.1.clarifications =
      updateFirstP (fun x => x.id == cid && x.workspace == ws && x.task == tid)
        (fun x => { x with responses := x.responses ++ [⟨msg, uid, now⟩] })
        db.clarifications := by
  unfold respondToTaskClarificationService at h
  split at h
  · exact absurd h (by simp)
  · split at h
    · exact absurd h (by simp)
    · simp only [Except.ok.injEq] at h
      rw [← h]

theorem updateFirstP_prefix (p : Clarification → Bool)
    (f : Clarification → Clarification)
    (hf : ∀ x, (f x).id = x.id ∧ x.responses <+: (f x).responses) :
    ∀ l, ∀ c ∈ l, ∃ c' ∈ updateFirstP p f l,
      c'.id = c.id ∧ c.responses <+: c'.responses := by
  intro l
  induction l with
  | nil => intro c hc; cases hc
  | cons a l ih =>
    intro c hc
    unfold updateFirstP
    by_cases hpa : p a
    · simp only [hpa, if_true]
      rcases List.mem_cons.mp hc with hceq | hcl
      · subst hceq
        exact ⟨f c, List.mem_cons_self _ _, (hf c).1, (hf c).2⟩
      · exact ⟨c, List.mem_cons_of_mem _ hcl, rfl, List.prefix_refl _⟩
    · simp only [hpa, if_false]
      rcases List.mem_cons.mp hc with hceq | hcl
      · subst hceq
        exact ⟨c, List.mem_cons_self _ _, rfl, List.prefix_refl _⟩
      · obtain ⟨c', hc', h1, h2⟩ := ih c hcl
        exact ⟨c', List.mem_cons_of_mem _ hc', h1, h2⟩

theorem updateFirstP_mem_unique (p : Clarification → Bool)
    (f : Clarification → Clarification) :
    ∀ (l : List Clarification) (c : Clarification), c ∈ l → p c = true →
      (∀ x ∈ l, p x = true → x = c) → f c ∈ updateFirstP p f l := by
  intro l
  induction l with
  | nil => intro c hc; cases hc
  | cons a l ih =>
    intro c hc hpc huni
    unfold updateFirstP
    by_cases hpa : p a
    · have ha : a = c := huni a (List.mem_cons_self _ _) hpa
      subst ha
      simp [hpa]
    · rw [if_neg hpa]
      rcases List.mem_cons.mp hc with hceq | hcl
      · exact absurd (hceq ▸ hpc) hpa
      · exact List.mem_cons_of_mem _
          (ih c hcl hpc (fun x hx hpx => huni x (List.mem_cons_of_mem _ hx) hpx))


/-- Claim C7: clarification responses are append-only: every operation of
the system preserves each stored clarification's response list as a prefix
(so no response is ever edited or deleted), and a successful respond
operation appends exactly one entry, carrying the current time, at the end
of the matched clarification's list, preserving creation-time order. -/
theorem C7_responses_append_only
    (db : DB) (op : Op) (now : Nat) (db' : DB)
    (h : applyOp db op now = .ok db') :
    (∀ c ∈ db.clarifications, ∃ c' ∈ db'.clarifications,
      c'.id = c.id ∧ c.responses <+: c'.responses) ∧
    (∀ ws tid cid uid msg, op = .respondClarification ws tid cid uid msg →
      (db.clarifications.map Clarification.id).Nodup →
      ∀ c ∈ db.clarifications,
        c.id = cid → c.workspace = ws → c.task = tid →
        ∃ c' ∈ db'.clarifications,
          c'.id = c.id ∧
          c'.responses = c.responses ++ [⟨msg, uid, now⟩] ∧
          ((c.responses.Pairwise fun a b => a.createdAt ≤ b.createdAt) →
            (∀ resp ∈ c.responses, resp.createdAt ≤ now) →
            c'.responses.Pairwise fun a b => a.createdAt ≤ b.createdAt)) := by
  cases op with
  | createTask ws pid uid body nid =>
    simp only [applyOp] at h
    split at h
    · exact absurd h (by simp)
    · rename_i r heq
      injection h with h2
      subst h2
      have hcl := createTaskService_clarifications heq
      refine ⟨?_, ?_⟩
      · intro c hc
        exact ⟨c, by rw [hcl]; exact hc, rfl, List.prefix_refl _⟩
      · intro ws2 tid cid uid2 msg hop
        cases hop
  | updateTask ws pid tid uid role body =>
    simp only [applyOp] at h
    split at h
    · exact absurd h (by simp)
    · rename_i r heq
      injection h with h2
      subst h2
      have hcl := updateTaskService_clarifications heq
      refine ⟨?_, ?_⟩
      · intro c hc
        exact ⟨c, by rw [hcl]; exact hc, rfl, List.prefix_refl _⟩
      · intro ws2 tid2 cid uid2 msg hop
        cases hop
  | deleteTask ws tid =>
    simp only [applyOp] at h
    have hcl := deleteTaskService_clarifications h
    refine ⟨?_, ?_⟩
    · intro c hc
      exact ⟨c, by rw [hcl]; exact hc, rfl, List.prefix_refl _⟩
    · intro ws2 tid2 cid uid2 msg hop
      cases hop
  | getAllTasks ws f ps pn =>
    simp only [applyOp] at h
    injection h with h2
    subst h2
    refine ⟨?_, ?_⟩
    · intro c hc
      exact ⟨c, hc, rfl, List.prefix_refl _⟩
    · intro ws2 tid2 cid uid2 msg hop
      cases hop
  | getTaskById ws pid tid =>
    simp only [applyOp] at h
    split at h
    · exact absurd h (by simp)
    · injection h with h2
      subst h2
      refine ⟨?_, ?_⟩
      · intro c hc
        exact ⟨c, hc, rfl, List.prefix_refl _⟩
      · intro ws2 tid2 cid uid2 msg hop
        cases hop
  | listClarifications ws tid =>
    simp only [applyOp] at h
    split at h
    · exact absurd h (by simp)
    · injection h with h2
      subst h2
      refine ⟨?_, ?_⟩
      · intro c hc
        exact ⟨c, hc, rfl, List.prefix_refl _⟩
      · intro ws2 tid2 cid uid2 msg hop
        cases hop
  | createClarification ws tid uid q nid =>
    simp only [applyOp] at h
    split at h
    · exact absurd h (by simp)
    · rename_i r heq
      injection h with h2
      subst h2
      obtain ⟨newc, hcl⟩ := createTaskClarificationService_clarifications heq
      refine ⟨?_, ?_⟩
      · intro c hc
        refine ⟨c, ?_, rfl, List.prefix_refl _⟩
        rw [hcl]
        exact List.mem_append_left _ hc
      · intro ws2 tid2 cid uid2 msg hop
        cases hop
  | respondClarification ws tid cid uid msg =>
    simp only [applyOp] at h
    split at h
    · exact absurd h (by simp)
    · rename_i r heq
      injection h with h2
      subst h2
      have hcl := respondToTaskClarificationService_clarifications heq
      refine ⟨?_, ?_⟩
      · intro c hc
        rw [hcl]
        exact updateFirstP_prefix
          (fun x : Clarification => x.id == cid && x.workspace == ws && x.task == tid)
          (fun x => { x with responses := x.responses ++ [⟨msg, uid, now⟩] })
          (fun x => ⟨rfl, by simp⟩) db.clarifications c hc
      · intro ws2 tid2 cid2 uid2 msg2 hop hnodup c hc hcid hcw hct
        injection hop with e1 e2 e3 e4 e5
        subst e1; subst e2; subst e3; subst e4; subst e5
        have hpc : (fun x : Clarification =>
            x.id == cid && x.workspace == ws && x.task == tid) c = true := by
          simp [hcid, hcw, hct]
        have huni : ∀ x ∈ db.clarifications,
            (fun x : Clarification =>
              x.id == cid && x.workspace == ws && x.task == tid) x = true → x = c := by
          intro x hx hpx
          simp only [Bool.and_eq_true, beq_iff_eq] at hpx
          exact List.inj_on_of_nodup_map hnodup hx hc (by rw [hpx.1.1, hcid])
        have hmem := updateFirstP_mem_unique
          (fun x : Clarification => x.id == cid && x.workspace == ws && x.task == tid)
          (fun x => { x with responses := x.responses ++ [⟨msg, uid, now⟩] })
          db.clarifications c hc hpc huni
        rw [hcl]
        refine ⟨_, hmem, rfl, rfl, ?_⟩
        intro hsorted hle
        rw [List.pairwise_append]
        refine ⟨hsorted, List.pairwise_singleton _ _, ?_⟩
        intro a ha b hb
        rw [List.mem_singleton] at hb
        rw [hb]
        exact hle a ha


/-- Claim C8: for every listing request whose filters include a non-empty
status set, every returned task's status lies in that set, and the
returned page is ordered newest first by creation time. -/
theorem C8_status_filter_sorted
    (db : DB) (workspaceId : String) (sts : List String) (f : TaskFilters)
    (hf : f.status = some sts) (hne : sts ≠ []) (pageSize pageNumber : Int) :
    (∀ t ∈ (getAllTasksService db workspaceId f pageSize pageNumber).tasks,
      t.status ∈ sts) ∧
    (getAllTasksService db workspaceId f pageSize pageNumber).tasks.Pairwise
      taskNewestFirst := by
  have hsub : List.Sublist
      (getAllTasksService db workspaceId f pageSize pageNumber).tasks
      ((db.tasks.filter (matchesTaskQuery workspaceId f)).insertionSort
        taskNewestFirst) := by
    simp only [getAllTasksService]
    exact (List.take_sublist _ _).trans (List.drop_sublist _ _)
  constructor
  · intro t ht
    have htm := hsub.subset ht
    rw [List.mem_insertionSort, List.mem_filter] at htm
    have hq := htm.2
    simp only [matchesTaskQuery, hf, Bool.and_eq_true] at hq
    have hst := hq.1.1.1.1.2
    have hemp : sts.isEmpty = false := by
      cases sts with
      | nil => exact absurd rfl hne
      | cons a l => rfl
    rw [hemp] at hst
    simp only [Bool.false_or] at hst
    exact List.elem_iff.mp hst
  · exact List.Pairwise.sublist hsub
      (List.sorted_insertionSort taskNewestFirst _)


theorem jsMathCeilDiv_eq_ceil (n : Nat) (b : Int) (hb : b ≠ 0) :
    jsMathCeilDiv n b = ⌈(n : ℚ) / (b : ℚ)⌉ := by
  unfold jsMathCeilDiv
  rw [if_neg hb]
  cases b with
  | ofNat m =>
    cases m with
    | zero => exact absurd rfl hb
    | succ m =>
      cases n with
      | zero => simp
      | succ k =>
        obtain ⟨q, r, hqr, hr⟩ : ∃ q r, (m + 1) * q + r = k ∧ r < m + 1 :=
          ⟨k / (m + 1), k % (m + 1), Nat.div_add_mod k (m + 1),
            Nat.mod_lt _ (Nat.succ_pos m)⟩
        have hdiv : k / (m + 1) = q := by
          rw [← hqr, Nat.mul_comm, Nat.add_comm,
            Nat.add_mul_div_right _ _ (Nat.succ_pos m), Nat.div_eq_of_lt hr,
            Nat.zero_add]
        have hneg : (-(((k + 1 : Nat)) : Int)) = Int.negSucc k := rfl
        have hfd : Int.fdiv (Int.negSucc k) (Int.ofNat (m + 1)) =
            Int.negSucc (k / (m + 1)) := rfl
        rw [hneg, hfd, hdiv]
        have hkq : Int.negSucc q = -(((q : Nat) : Int) + 1) := by
          simp [Int.negSucc_eq]
        rw [hkq, neg_neg]
        symm
        rw [Int.ceil_eq_iff]
        have hmq : ((Int.ofNat (m + 1) : Int) : ℚ) = ((m : ℚ) + 1) := by
          rw [Int.ofNat_eq_natCast]
          push_cast
          ring
        have hmpos : (0 : ℚ) < (m : ℚ) + 1 := by positivity
        subst hqr
        constructor
        · rw [hmq, lt_div_iff₀ hmpos]
          push_cast
          linarith
        · rw [hmq, div_le_iff₀ hmpos]
          have h2 : (m + 1) * q + r + 1 ≤ (q + 1) * (m + 1) := by
            calc (m + 1) * q + r + 1
                = (m + 1) * q + (r + 1) := by rw [Nat.add_assoc]
              _ ≤ (m + 1) * q + (m + 1) := Nat.add_le_add_left (by omega) _
              _ = (q + 1) * (m + 1) := by ring
          push_cast
          exact_mod_cast h2
  | negSucc m =>
    cases n with
    | zero => simp
    | succ k =>
      have hneg : (-(((k + 1 : Nat)) : Int)) = Int.negSucc k := rfl
      have hfd : Int.fdiv (Int.negSucc k) (Int.negSucc m) =
          Int.ofNat ((k + 1) / (m + 1)) := rfl
      rw [hneg, hfd]
      have hcast : ((Int.negSucc m : Int) : ℚ) = -(((m + 1 : Nat) : ℚ)) := by
        rw [Int.cast_negSucc]
        try push_cast
        try ring
      rw [hcast, div_neg, Int.ceil_neg, neg_inj]
      have hfl := Rat.floor_intCast_div_natCast ((k + 1 : Nat) : Int) (m + 1)
      push_cast at hfl
      push_cast
      rw [hfl, Int.ofNat_eq_natCast, Int.natCast_div]
      push_cast
      try rfl

/-- The effective page size chosen by the controller is never zero: a zero
or unparsable parameter is replaced by the non-zero default. -/
theorem taskListPagination_pageSize_ne_zero
    (pageSizeParam pageNumberParam : Option String) :
    (taskListPagination pageSizeParam pageNumberParam).1 ≠ 0 := by
  unfold taskListPagination jsOrInt
  cases jsParseInt pageSizeParam with
  | none => norm_num
  | some v =>
    by_cases hv : v = 0 <;> simp [hv]

/-- Claim C9: for every pair of pagination query parameters, whenever the
pageSize parameter is absent or does not parse as an integer the listing
reports pageSize 10, whenever the pageNumber parameter is absent or does
not parse the listing reports pageNumber 1 (each default independently,
covering the mixed cases), and for every request the reported pagination
satisfies skip = (pageNumber - 1) * pageSize and
totalPages = ceiling(totalCount / pageSize), the ceiling of the exact
rational quotient. -/
theorem C9_pagination_defaults
    (pageSizeParam pageNumberParam : Option String)
    (db : DB) (workspaceId : String) (filters : TaskFilters) :
    (jsParseInt pageSizeParam = none →
      (getAllTasksService db workspaceId filters
        (taskListPagination pageSizeParam pageNumberParam).1
        (taskListPagination pageSizeParam pageNumberParam).2).pagination.pageSize
        = 10) ∧
    (jsParseInt pageNumberParam = none →
      (getAllTasksService db workspaceId filters
        (taskListPagination pageSizeParam pageNumberParam).1
        (taskListPagination pageSizeParam pageNumberParam).2).pagination.pageNumber
        = 1) ∧
    (getAllTasksService db workspaceId filters
        (taskListPagination pageSizeParam pageNumberParam).1
        (taskListPagination pageSizeParam pageNumberParam).2).pagination.skip =
      ((getAllTasksService db workspaceId filters
        (taskListPagination pageSizeParam pageNumberParam).1
        (taskListPagination pageSizeParam pageNumberParam).2).pagination.pageNumber
          - 1) *
        (getAllTasksService db workspaceId filters
          (taskListPagination pageSizeParam pageNumberParam).1
          (taskListPagination pageSizeParam pageNumberParam).2).pagination.pageSize ∧
    (getAllTasksService db workspaceId filters
        (taskListPagination pageSizeParam pageNumberParam).1
        (taskListPagination pageSizeParam pageNumberParam).2).pagination.totalPages =
      ⌈((getAllTasksService db workspaceId filters
          (taskListPagination pageSizeParam pageNumberParam).1
          (taskListPagination pageSizeParam pageNumberParam).2).pagination.totalCount
          : ℚ) /
        ((getAllTasksService db workspaceId filters
          (taskListPagination pageSizeParam pageNumberParam).1
          (taskListPagination pageSizeParam pageNumberParam).2).pagination.pageSize
          : ℚ)⌉ := by
  refine ⟨?_, ?_, ?_, ?_⟩
  · intro h
    simp [getAllTasksService, taskListPagination, jsOrInt, h]
  · intro h
    simp [getAllTasksService, taskListPagination, jsOrInt, h]
  · simp [getAllTasksService]
  · simp only [getAllTasksService]
    exact jsMathCeilDiv_eq_ceil _ _
      (taskListPagination_pageSize_ne_zero pageSizeParam pageNumberParam)


theorem tokenizeRegex_no_meta (pl : List Char) (h : ∀ c ∈ pl, c ∉ regexMetachars) :
    tokenizeRegex pl = some (pl.map RTok.lit) := by
  induction pl with
  | nil => rfl
  | cons c rest ih =>
    have hc := h c (List.mem_cons_self _ _)
    have hbs : c ≠ '\\' := fun he => hc (by rw [he]; decide)
    have hdot : c ≠ '.' := fun he => hc (by rw [he]; decide)
    unfold tokenizeRegex
    rw [if_neg hbs, if_neg hdot, if_neg hc,
      ih (fun x hx => h x (List.mem_cons_of_mem _ hx))]
    rfl

theorem matchToksAt_map_lit (pl : List Char) :
    ∀ cs, matchToksAt (pl.map RTok.lit) cs =
      (pl.map Char.toLower).isPrefixOf (cs.map Char.toLower) := by
  induction pl with
  | nil => intro cs; simp [matchToksAt]
  | cons p pl ih =>
    intro cs
    cases cs with
    | nil => rfl
    | cons c cs =>
      simp only [List.map_cons, matchToksAt, tokMatches, List.isPrefixOf_cons₂, ih cs]

theorem searchToks_lit_iff (pl : List Char) :
    ∀ cs, searchToks (pl.map RTok.lit) cs = true ↔
      List.IsInfix (pl.map Char.toLower) (cs.map Char.toLower) := by
  intro cs
  induction cs with
  | nil =>
    simp only [searchToks, matchToksAt_map_lit, List.map_nil,
      List.isPrefixOf_iff_prefix, List.prefix_nil, List.infix_nil]
  | cons c cs ih =>
    rw [searchToks, Bool.or_eq_true, ih, matchToksAt_map_lit,
      List.isPrefixOf_iff_prefix, List.map_cons, List.infix_cons_iff]

/-- The specification-side filter: the keyword occurs in the title as a
case-insensitive substring. -/
def containsSubstrCI (needle hay : String) : Prop :=
  List.IsInfix (needle.toList.map Char.toLower) (hay.toList.map Char.toLower)

instance (needle hay : String) : Decidable (containsSubstrCI needle hay) :=
  List.decidableInfix _ _


/-- Claim C6 as amended: for every keyword free of regex metacharacters
(and a page large enough to hold all matches), the returned tasks are
exactly the workspace's tasks whose title contains the keyword as a
case-insensitive substring. -/
theorem C6_amended_keyword_substring
    (db : DB) (workspaceId keyword : String) (pageSize : Int)
    (hmeta : ∀ c ∈ keyword.toList, c ∉ regexMetachars)
    (hsize : (db.tasks.filter
      (matchesTaskQuery workspaceId { keyword := some keyword })).length ≤
        pageSize.toNat) :
    ∀ t : Task,
      t ∈ (getAllTasksService db workspaceId { keyword := some keyword }
            pageSize 1).tasks ↔
        (t ∈ db.tasks ∧ t.workspace = workspaceId ∧
          containsSubstrCI keyword t.title) := by
  intro t
  have hlen : ((db.tasks.filter
      (matchesTaskQuery workspaceId { keyword := some keyword })).insertionSort
        taskNewestFirst).length ≤ pageSize.toNat := by
    rw [(List.perm_insertionSort taskNewestFirst _).length_eq]
    exact hsize
  have hlist : (getAllTasksService db workspaceId { keyword := some keyword }
      pageSize 1).tasks =
      (db.tasks.filter
        (matchesTaskQuery workspaceId { keyword := some keyword })).insertionSort
        taskNewestFirst := by
    simp only [getAllTasksService]
    norm_num
    exact hsize
  have hq : matchesTaskQuery workspaceId { keyword := some keyword } t = true ↔
      (t.workspace = workspaceId ∧ containsSubstrCI keyword t.title) := by
    by_cases hk : keyword = ""
    · subst hk
      simp [matchesTaskQuery, containsSubstrCI]
    · have hkb : (keyword == "") = false := by simpa using hk
      have hregex : mongoRegexIMatch keyword t.title = true ↔
          containsSubstrCI keyword t.title := by
        unfold mongoRegexIMatch
        rw [tokenizeRegex_no_meta keyword.toList hmeta]
        exact searchToks_lit_iff _ _
      simp only [matchesTaskQuery, hkb, Bool.false_or, Bool.and_eq_true,
        beq_iff_eq]
      simp [hregex]
  rw [hlist, List.mem_insertionSort, List.mem_filter, hq]

def kwTask : Task :=
  { id := "t1", workspace := "w1", project := "p1", title := "abc",
    description := none, priority := "MEDIUM", status := "TODO",
    assignedTo := none, createdBy := "u1", dueDate := none, createdAt := 0 }

def kwDB : DB :=
  { projects := [], members := [], tasks := [kwTask], clarifications := [] }

/-- Claim C6 counterexample: with the keyword `"."` (a regex
metacharacter) the listing returns a task whose title `"abc"` does not
contain `"."` as a substring, because the keyword is passed to the store
as an unescaped regular expression. -/
theorem C6_counterexample :
    ¬ (∀ t : Task,
      t ∈ (getAllTasksService kwDB "w1" { keyword := some "." } 10 1).tasks ↔
        (t ∈ kwDB.tasks ∧ t.workspace = "w1" ∧ containsSubstrCI "." t.title)) := by
  intro hclaim
  have h1 := (hclaim kwTask).mp (by decide)
  exact absurd h1.2.2 (by decide)


/-- A sample workspace `w1` with one project, two members (an owner and a
member), one task assigned to the member, and one clarification. -/
def exProject : Project := ⟨"p1", "w1"⟩

def exTask : Task :=
  { id := "t1", workspace := "w1", project := "p1", title := "Fix login bug",
    description := none, priority := "MEDIUM", status := "TODO",
    assignedTo := some "u1", createdBy := "u0", dueDate := none, createdAt := 5 }

def exClar : Clarification :=
  { id := "c1", task := "t1", workspace := "w1",
    question := "Why is this task blocked?", askedBy := "u1",
    responses := [], createdAt := 3 }

def exDB : DB :=
  { projects := [exProject],
    members := [⟨"u0", "w1", .owner⟩, ⟨"u1", "w1", .member⟩],
    tasks := [exTask],
    clarifications := [exClar] }

/-- Witness for claim C1: user `u9` (a plain member, not the assignee) is
rejected when renaming task `t1`. -/
theorem C1_update_unauthorized_witness :
    exDB.tasks.find? (fun t => t.id == "t1") = some exTask ∧
    updateTaskService exDB "w1" "p1" "t1" "u9" Role.member
        { title := some "Hijacked" } =
      .error (.unauthorized "You are not authorized to update this task") :=
  ⟨by decide,
   C1_update_unauthorized exDB "w1" "p1" "t1" "u9" Role.member exProject exTask
     (by decide) (by decide) (by decide) (by decide) ⟨by decide, by decide⟩
     (by decide) { title := some "Hijacked" }⟩

/-- Witness for claim C2: the assignee `u1` may not retitle task `t1` but
may set its status to `DONE`, which changes only the status field. -/
theorem C2_assignee_member_status_only_witness :
    (updateTaskService exDB "w1" "p1" "t1" "u1" Role.member
        { title := some "Renamed" } =
      .error (.unauthorized "Members can only update the task status")) ∧
    (updateTaskService exDB "w1" "p1" "t1" "u1" Role.member
        { status := some "DONE" } =
      .ok ({ exDB with
              tasks := exDB.tasks.map
                (fun x => if x.id = "t1" then { exTask with status := "DONE" } else x) },
           { exTask with status := "DONE" })) :=
  ⟨(C2_assignee_member_status_only exDB "w1" "p1" "t1" "u1" Role.member
      exProject exTask (by decide) (by decide) (by decide) (by decide)
      ⟨by decide, by decide⟩ (by decide)).1
    { title := some "Renamed" } (Or.inl (by decide)),
   (C2_assignee_member_status_only exDB "w1" "p1" "t1" "u1" Role.member
      exProject exTask (by decide) (by decide) (by decide) (by decide)
      ⟨by decide, by decide⟩ (by decide)).2
    "DONE" { status := some "DONE" } rfl rfl rfl rfl (Or.inl rfl) rfl⟩

/-- Witness for claim C3 (amended): assigning the non-member `u9` fails
with the generic error on create and the bad-request error on update. -/
theorem C3_amended_nonmember_assignee_witness :
    memberExists exDB "u9" "w1" = false ∧
    (createTaskService exDB "w1" "p1" "u0"
        { title := "New task", priority := "LOW", status := "TODO",
          assignedTo := some "u9" } "t9" 7 =
      .error (.generic "Assigned user is not a member of this workspace.")) ∧
    (updateTaskService exDB "w1" "p1" "t1" "u0" Role.owner
        { assignedTo := some (.str "u9") } =
      .error (.badRequest "Assigned user is not a member of this workspace")) :=
  ⟨by decide,
   (C3_amended_nonmember_assignee exDB "w1" "p1" "u0" exProject "u9"
      (by decide) (by decide) (by decide) (by decide)).1
     { title := "New task", priority := "LOW", status := "TODO",
       assignedTo := some "u9" } rfl "t9" 7,
   (C3_amended_nonmember_assignee exDB "w1" "p1" "u0" exProject "u9"
      (by decide) (by decide) (by decide) (by decide)).2
     "t1" "u0" Role.owner exTask { assignedTo := some (.str "u9") }
     (by decide) (by decide) (by decide) rfl⟩

/-- Witness for claim C4: the owner sending an empty body gets the
bad-request error. -/
theorem C4_empty_update_bad_request_witness :
    updateFieldsEmpty (effectivePayload (isOwnerOrAdminRole Role.owner) {}) = true ∧
    updateTaskService exDB "w1" "p1" "t1" "u0" Role.owner {} =
      .error (.badRequest "No updates were provided") :=
  ⟨by decide,
   C4_empty_update_bad_request exDB "w1" "p1" "t1" "u0" Role.owner
     exProject exTask {} (by decide) (by decide) (by decide) (by decide)
     (Or.inl (by decide)) (by decide) (by decide)⟩

/-- Witness for claim C5: task `t1` lives in workspace `w1`, so naming it
together with workspace `w2` makes each operation fail as not-found. -/
theorem C5_cross_workspace_not_found_witness :
    exTask ∈ exDB.tasks ∧
    getTaskClarificationsService exDB "w2" "t1" =
      .error (.notFound "Task not found or does not belong to this workspace") ∧
    deleteTaskService exDB "w2" "t1" =
      .error (.notFound "Task not found or does not belong to the specified workspace") :=
  have h := C5_cross_workspace_not_found exDB "w2" "t1" exTask
    (by decide) (by decide) (by decide) (by decide)
    (by
      intro u hu p hp
      have hu2 : u = exTask := by
        rcases List.mem_singleton.mp hu with h2
        exact h2
      subst hu2
      rw [show exDB.projects.find? (fun q => q.id == exTask.project) =
          some exProject from by decide] at hp
      rw [← Option.some.inj hp]
      rfl)
  ⟨by decide, h.1, h.2.2.2.2.2⟩

/-- Witness for claim C6 (amended): the metacharacter-free keyword `login`
selects exactly the task whose title contains it case-insensitively. -/
theorem C6_amended_keyword_substring_witness :
    (∀ c ∈ ("login" : String).toList, c ∉ regexMetachars) ∧
    (exTask ∈ (getAllTasksService exDB "w1" { keyword := some "login" } 10 1).tasks ↔
      (exTask ∈ exDB.tasks ∧ exTask.workspace = "w1" ∧
        containsSubstrCI "login" exTask.title)) :=
  ⟨by decide,
   C6_amended_keyword_substring exDB "w1" "login" 10 (by decide) (by decide) exTask⟩

/-- The store after responding to the sample clarification at time 9. -/
def exDBResponded : DB :=
  { exDB with clarifications :=
      [{ exClar with responses := [⟨"Working on it", "u0", 9⟩] }] }

/-- Witness for claim C7: responding to clarification `c1` succeeds and
every pre-existing clarification keeps its responses as a prefix. -/
theorem C7_responses_append_only_witness :
    applyOp exDB (Op.respondClarification "w1" "t1" "c1" "u0" "Working on it") 9 =
      .ok exDBResponded ∧
    ∀ c ∈ exDB.clarifications, ∃ c' ∈ exDBResponded.clarifications,
      c'.id = c.id ∧ c.responses <+: c'.responses :=
  ⟨by decide,
   (C7_responses_append_only exDB
     (Op.respondClarification "w1" "t1" "c1" "u0" "Working on it") 9
     exDBResponded (by decide)).1⟩

/-- Witness for claim C8: filtering by the status set `[TODO]` returns
tasks with that status only, newest first. -/
theorem C8_status_filter_sorted_witness :
    (["TODO"] : List String) ≠ [] ∧
    (∀ t ∈ (getAllTasksService exDB "w1" { status := some ["TODO"] } 10 1).tasks,
      t.status ∈ (["TODO"] : List String)) ∧
    (getAllTasksService exDB "w1" { status := some ["TODO"] } 10 1).tasks.Pairwise
      taskNewestFirst :=
  ⟨by decide,
   (C8_status_filter_sorted exDB "w1" ["TODO"] { status := some ["TODO"] }
      rfl (by decide) 10 1).1,
   (C8_status_filter_sorted exDB "w1" ["TODO"] { status := some ["TODO"] }
      rfl (by decide) 10 1).2⟩

/-- Witness for claim C9: with pageSize absent and pageNumber `"3"` the
listing uses pageSize 10 with pageNumber 3 and reports skip and totalPages
by the claimed formulas; with pageSize `"abc"` and pageNumber absent the
pageNumber defaults to 1. -/
theorem C9_pagination_defaults_witness :
    jsParseInt none = none ∧
    taskListPagination none (some "3") = (10, 3) ∧
    (getAllTasksService exDB "w1" {}
      (taskListPagination none (some "3")).1
      (taskListPagination none (some "3")).2).pagination.pageSize = 10 ∧
    (getAllTasksService exDB "w1" {}
      (taskListPagination none (some "3")).1
      (taskListPagination none (some "3")).2).pagination.totalPages =
      ⌈((getAllTasksService exDB "w1" {}
          (taskListPagination none (some "3")).1
          (taskListPagination none (some "3")).2).pagination.totalCount : ℚ) /
        ((getAllTasksService exDB "w1" {}
          (taskListPagination none (some "3")).1
          (taskListPagination none (some "3")).2).pagination.pageSize : ℚ)⌉ ∧
    (getAllTasksService exDB "w1" {}
      (taskListPagination (some "abc") none).1
      (taskListPagination (some "abc") none).2).pagination.pageNumber = 1 :=
  ⟨rfl, by decide,
   (C9_pagination_defaults none (some "3") exDB "w1" {}).1 rfl,
   (C9_pagination_defaults none (some "3") exDB "w1" {}).2.2.2,
   (C9_pagination_defaults (some "abc") none exDB "w1" {}).2.1 (by decide)⟩

/-- Witness for claim C10: the owner clearing the assignee with null
succeeds, stores an unassigned task, and does so even with no members. -/
theorem C10_clear_assignee_no_member_check_witness :
    ∃ ut : Task,
      updateTaskService { exDB with members := [] } "w1" "p1" "t1" "u0"
          Role.owner { assignedTo := some JsVal.jsNull } =
        .ok ({ exDB with
                members := []
                tasks := exDB.tasks.map (fun x => if x.id = "t1" then ut else x) },
             ut) ∧
      ut.assignedTo = none :=
  C10_clear_assignee_no_member_check exDB "w1" "p1" "t1" "u0" Role.owner
    exProject exTask { assignedTo := some JsVal.jsNull }
    (by decide) (by decide) (by decide) (by decide)
    (Or.inl rfl) (Or.inl rfl) []



end TeamAssist
